import Mathlib

/-!
Verification of the bounded producer/consumer frame pipeline of the
`camera-gstreamer` demo: the `FrameQueue` class (a fixed-capacity
thread-safe channel with drop-oldest overflow, timeout-based `pop`, and
a `running_` closed flag), the capture thread's initialization path, and
the shared shutdown flag of `main`.

Frames are modelled as values of an arbitrary type `α` (`cv::Mat` with
`clone`-on-push value semantics).  The buffered `std::queue<cv::Mat>` is
a list with its front at the head.  Each public member function holds
the mutex for its whole body, so in this embedding every operation is an
atomic function on the state; `cond_.wait_for(lock, ms, pred)` in a run
where no other thread intervenes returns the value of `pred` at entry,
after waiting zero milliseconds when `pred` already holds (including
every non-positive timeout) and the full timeout otherwise.
`std::queue::pop()` on an empty queue is undefined behaviour, modelled
as `Option.none` percolating out of `push`.
-/

/-- State of the `FrameQueue` class: the buffered frames `queue_` (front
at the head), the capacity `max_size_`, and the open/closed flag
`running_` (true while open). -/
structure FrameQueue (α : Type) where
  queue_ : List α
  max_size_ : Nat
  running_ : Bool
deriving Repr, DecidableEq

/-- Constructor `FrameQueue(size_t max_size = 5)`: empty buffer, running. -/
def FrameQueue.new (α : Type) (max_size : Nat) : FrameQueue α :=
  { queue_ := [], max_size_ := max_size, running_ := true }

/-- The drop-oldest loop at the head of `push`:
`while (queue_.size() >= max_size_ && running_) queue_.pop();`.
Returns `none` when the loop reaches `queue_.pop()` on an empty queue
(undefined behaviour, reachable only with `max_size_ = 0` on an open
queue), otherwise the buffer left when the loop condition fails. -/
def FrameQueue.dropLoop {α : Type} (running : Bool) (cap : Nat) :
    List α → Option (List α)
  | [] => if cap = 0 ∧ running = true then none else some []
  | f :: rest =>
      if cap ≤ rest.length + 1 ∧ running = true then
        FrameQueue.dropLoop running cap rest
      else some (f :: rest)

/-- `push(const cv::Mat& frame)`: run the drop-oldest loop, then, if
still running, append a clone of the frame at the back.  `none` models
the undefined behaviour inherited from the drop loop. -/
def FrameQueue.push {α : Type} (q : FrameQueue α) (frame : α) :
    Option (FrameQueue α) :=
  match FrameQueue.dropLoop q.running_ q.max_size_ q.queue_ with
  | none => none
  | some buf =>
      if q.running_ = true then some { q with queue_ := buf ++ [frame] }
      else some { q with queue_ := buf }

/-- The closure passed to `cond_.wait_for`:
`[this] \x7b return !queue_.empty() || !running_; \x7d`. -/
def FrameQueue.waitPred {α : Type} (q : FrameQueue α) : Bool :=
  !q.queue_.isEmpty || !q.running_

/-- `pop(cv::Mat& frame, int timeout_ms)`: the delivered frame (the out
parameter, `none` when not assigned), the `bool` return value, and the
state after the call.  In a run with no concurrent operation the state
cannot change inside `cond_.wait_for`, so the wait returns the value of
`waitPred` at entry. -/
def FrameQueue.pop {α : Type} (q : FrameQueue α) (timeout_ms : Int) :
    (Option α × Bool) × FrameQueue α :=
  if FrameQueue.waitPred q = false then ((none, false), q)
  else if q.running_ = false ∧ q.queue_.isEmpty = true then ((none, false), q)
  else match q.queue_ with
    | [] => ((none, false), q)
    | f :: rest => ((some f, true), { q with queue_ := rest })

/-- Milliseconds spent inside `cond_.wait_for` by `pop` in a run with no
concurrent operation: zero when the predicate already holds at entry
(`wait_for` with a non-positive duration also returns at once, hence the
clamp `Int.toNat`), otherwise the full timeout elapses. -/
def FrameQueue.popElapsed {α : Type} (q : FrameQueue α) (timeout_ms : Int) : Nat :=
  if FrameQueue.waitPred q = true then 0 else timeout_ms.toNat

/-- `stop()`: clear `running_` and wake all waiters. -/
def FrameQueue.stop {α : Type} (q : FrameQueue α) : FrameQueue α :=
  { q with running_ := false }

/-- `is_running()`. -/
def FrameQueue.is_running {α : Type} (q : FrameQueue α) : Bool :=
  q.running_

/-- `size()`: current occupancy, read under the mutex. -/
def FrameQueue.size {α : Type} (q : FrameQueue α) : Nat :=
  q.queue_.length

/-! ### Basic lemmas about the drop loop, push and pop -/

theorem dropLoop_not_running {α : Type} (cap : Nat) (buf : List α) :
    FrameQueue.dropLoop false cap buf = some buf := by
  cases buf with
  | nil => simp [FrameQueue.dropLoop]
  | cons f rest => simp [FrameQueue.dropLoop]

theorem dropLoop_lt {α : Type} (running : Bool) (cap : Nat) (buf : List α)
    (h : buf.length < cap) :
    FrameQueue.dropLoop running cap buf = some buf := by
  cases buf with
  | nil =>
      have hc : ¬ cap = 0 := by simp at h; omega
      simp [FrameQueue.dropLoop, hc]
  | cons f rest =>
      have hc : ¬ cap ≤ rest.length + 1 := by simp at h; omega
      simp [FrameQueue.dropLoop, hc]

theorem dropLoop_length_lt {α : Type} (cap : Nat) (hcap : 1 ≤ cap) (buf : List α) :
    ∃ out, FrameQueue.dropLoop true cap buf = some out ∧ out.length < cap := by
  induction buf with
  | nil =>
      have hc : ¬ cap = 0 := by omega
      exact ⟨[], by simp [FrameQueue.dropLoop, hc], by simpa using hcap⟩
  | cons f rest ih =>
      by_cases h : cap ≤ rest.length + 1
      · obtain ⟨out, h1, h2⟩ := ih
        exact ⟨out, by simp [FrameQueue.dropLoop, h, h1], h2⟩
      · exact ⟨f :: rest, by simp [FrameQueue.dropLoop, h], by simp; omega⟩

theorem dropLoop_eq_drop {α : Type} (cap : Nat) (hcap : 1 ≤ cap) (buf : List α) :
    FrameQueue.dropLoop true cap buf = some (buf.drop (buf.length + 1 - cap)) := by
  induction buf with
  | nil =>
      have hc : ¬ cap = 0 := by omega
      simp [FrameQueue.dropLoop, hc]
  | cons f rest ih =>
      by_cases h : cap ≤ rest.length + 1
      · have hidx : (f :: rest).length + 1 - cap = (rest.length + 1 - cap) + 1 := by
          simp; omega
        rw [hidx]
        simpa [FrameQueue.dropLoop, h] using ih
      · have hidx : rest.length + 1 + 1 - cap = 0 := by omega
        simp [FrameQueue.dropLoop, h, List.length_cons, hidx]

theorem dropLoop_cap_zero {α : Type} (buf : List α) :
    FrameQueue.dropLoop true 0 buf = none := by
  induction buf with
  | nil => simp [FrameQueue.dropLoop]
  | cons f rest ih => simpa [FrameQueue.dropLoop] using ih

theorem push_closed {α : Type} (q : FrameQueue α) (f : α)
    (h : q.running_ = false) : q.push f = some q := by
  obtain ⟨buf, cap, r⟩ := q
  simp only [FrameQueue.running_] at h
  subst h
  unfold FrameQueue.push
  rw [dropLoop_not_running]
  simp

theorem push_open_not_full {α : Type} (q : FrameQueue α) (f : α)
    (hr : q.running_ = true) (hlt : q.size < q.max_size_) :
    q.push f = some { q with queue_ := q.queue_ ++ [f] } := by
  unfold FrameQueue.push
  rw [hr, dropLoop_lt true q.max_size_ q.queue_ hlt]
  simp

theorem push_open {α : Type} (q : FrameQueue α) (f : α)
    (hr : q.running_ = true) (hcap : 1 ≤ q.max_size_) :
    q.push f =
      some { q with queue_ := q.queue_.drop (q.queue_.length + 1 - q.max_size_) ++ [f] } := by
  unfold FrameQueue.push
  rw [hr, dropLoop_eq_drop q.max_size_ hcap q.queue_]
  simp

theorem push_cap_zero {α : Type} (q : FrameQueue α) (f : α)
    (hr : q.running_ = true) (hcap : q.max_size_ = 0) :
    q.push f = none := by
  unfold FrameQueue.push
  rw [hr, hcap, dropLoop_cap_zero]

theorem push_preserves {α : Type} (q : FrameQueue α) (f : α)
    (hcap : 1 ≤ q.max_size_) (hsz : q.size ≤ q.max_size_) :
    ∃ q', q.push f = some q' ∧ q'.size ≤ q.max_size_ ∧
      q'.max_size_ = q.max_size_ ∧ q'.running_ = q.running_ := by
  cases hr : q.running_ with
  | false => exact ⟨q, push_closed q f hr, hsz, rfl, hr⟩
  | true =>
      obtain ⟨out, h1, h2⟩ := dropLoop_length_lt q.max_size_ hcap q.queue_
      refine ⟨{ q with queue_ := out ++ [f] }, ?_, ?_, rfl, hr⟩
      · unfold FrameQueue.push
        rw [hr, h1]
        simp
      · simp [FrameQueue.size]
        omega

theorem pop_eq {α : Type} (q : FrameQueue α) (t : Int) :
    q.pop t = (match q.queue_ with
      | [] => ((none, false), q)
      | f :: rest => ((some f, true), { q with queue_ := rest })) := by
  obtain ⟨buf, cap, r⟩ := q
  cases buf with
  | nil => cases r <;> simp [FrameQueue.pop, FrameQueue.waitPred]
  | cons f rest => cases r <;> simp [FrameQueue.pop, FrameQueue.waitPred]

theorem pop_nil {α : Type} (q : FrameQueue α) (t : Int) (h : q.queue_ = []) :
    q.pop t = ((none, false), q) := by
  rw [pop_eq, h]

theorem pop_cons {α : Type} (q : FrameQueue α) (t : Int) (f : α) (rest : List α)
    (h : q.queue_ = f :: rest) :
    q.pop t = ((some f, true), { q with queue_ := rest }) := by
  rw [pop_eq, h]

/-! ### The pipeline: shared shutdown flag, capture thread init, event steps -/

/-- Shared state of `main`: the `std::atomic<bool> running` shutdown
flag and the `FrameQueue frameQueue`. -/
structure PipelineState (α : Type) where
  running : Bool
  frameQueue : FrameQueue α
deriving Repr, DecidableEq

/-- Pipeline start in `main`: `running(true)` and a fresh
`FrameQueue frameQueue(queue_size)`. -/
def pipelineStart (α : Type) (queue_size : Nat) : PipelineState α :=
  { running := true, frameQueue := FrameQueue.new α queue_size }

/-- The initialization path of `captureThread` around
`cv::VideoCapture cap(...)`: on `!cap.isOpened()` it sets the shared
flag `running = false`, calls `frameQueue.stop()` and returns without
entering the read loop.  The boolean result records whether the read
loop is entered. -/
def captureThreadInit {α : Type} (isOpened : Bool) (s : PipelineState α) :
    PipelineState α × Bool :=
  if isOpened = false then
    ({ running := false, frameQueue := s.frameQueue.stop }, false)
  else (s, true)

/-- One observable pipeline event: the user exit key in `main`
(`running = false`), the capture-open failure path, a channel push, a
channel pop, `frameQueue.stop()`, or a `size()` query. -/
inductive PEvent (α : Type) where
  | requestStop
  | captureOpenFail
  | pushFrame (f : α)
  | popFrame (timeout_ms : Int)
  | stopQueue
  | sizeQuery
deriving Repr, DecidableEq

/-- Effect of one pipeline event on the shared state; `none` models the
undefined behaviour reachable inside `push`. -/
def pstep {α : Type} (s : PipelineState α) : PEvent α → Option (PipelineState α)
  | PEvent.requestStop => some { s with running := false }
  | PEvent.captureOpenFail => some (captureThreadInit false s).1
  | PEvent.pushFrame f =>
      (s.frameQueue.push f).map (fun q => { s with frameQueue := q })
  | PEvent.popFrame t => some { s with frameQueue := (s.frameQueue.pop t).2 }
  | PEvent.stopQueue => some { s with frameQueue := s.frameQueue.stop }
  | PEvent.sizeQuery => some s

/-- Run of a sequence of pipeline events. -/
def prun {α : Type} (s : PipelineState α) : List (PEvent α) → Option (PipelineState α)
  | [] => some s
  | e :: es =>
      match pstep s e with
      | none => none
      | some s' => prun s' es

/-! ### Sequences of channel operations -/

/-- One channel operation issued against the `FrameQueue`. -/
inductive QOp (α : Type) where
  | push (f : α)
  | pop (timeout_ms : Int)
deriving Repr, DecidableEq

/-- Run a sequence of channel operations; collects, in order, the frames
delivered by the successful pops, and returns the final queue.  `none`
models the undefined behaviour reachable inside `push`. -/
def runOps {α : Type} (q : FrameQueue α) : List (QOp α) → Option (FrameQueue α × List α)
  | [] => some (q, [])
  | QOp.push f :: rest =>
      match q.push f with
      | none => none
      | some q' => runOps q' rest
  | QOp.pop t :: rest =>
      match runOps (q.pop t).2 rest with
      | none => none
      | some (qf, outs) => some (qf, ((q.pop t).1.1).toList ++ outs)

/-- The frames submitted by the pushes of an operation sequence, in order. -/
def pushedFrames {α : Type} : List (QOp α) → List α
  | [] => []
  | QOp.push f :: rest => f :: pushedFrames rest
  | QOp.pop _ :: rest => pushedFrames rest

/-- Holds when no overflow occurs along the run: every push finds the
queue strictly below capacity (so the drop-oldest loop never fires). -/
def noOverflowRun {α : Type} (q : FrameQueue α) : List (QOp α) → Bool
  | [] => true
  | QOp.push f :: rest =>
      decide (q.size < q.max_size_) &&
        (match q.push f with
         | none => false
         | some q' => noOverflowRun q' rest)
  | QOp.pop t :: rest => noOverflowRun (q.pop t).2 rest

/-- Iterate `pop` (with the default one-second timeout) `n` times,
collecting the delivered frames in order. -/
def popN {α : Type} (q : FrameQueue α) : Nat → List α × FrameQueue α
  | 0 => ([], q)
  | n + 1 =>
      let r := q.pop 1000
      let s := popN r.2 n
      ((r.1.1).toList ++ s.1, s.2)

/-! ### Run-level lemmas -/

theorem runOps_fifo {α : Type} (ops : List (QOp α)) (q : FrameQueue α)
    (hr : q.running_ = true) (hno : noOverflowRun q ops = true) :
    ∃ q' outs, runOps q ops = some (q', outs) ∧ q'.running_ = true ∧
      outs ++ q'.queue_ = q.queue_ ++ pushedFrames ops := by
  induction ops generalizing q with
  | nil => exact ⟨q, [], rfl, hr, by simp [pushedFrames]⟩
  | cons op rest ih =>
      cases op with
      | push f =>
          rw [noOverflowRun, Bool.and_eq_true, decide_eq_true_iff] at hno
          obtain ⟨hlt, hno⟩ := hno
          have hpush := push_open_not_full q f hr hlt
          rw [hpush] at hno
          have hno' : noOverflowRun { q with queue_ := q.queue_ ++ [f] } rest = true := hno
          obtain ⟨q', outs, h1, h2, h3⟩ := ih { q with queue_ := q.queue_ ++ [f] } hr hno'
          refine ⟨q', outs, ?_, h2, ?_⟩
          · rw [runOps, hpush]
            exact h1
          · rw [h3]
            simp [pushedFrames]
      | pop t =>
          rw [noOverflowRun] at hno
          cases hbuf : q.queue_ with
          | nil =>
              have hpop := pop_nil q t hbuf
              rw [hpop] at hno
              have hno' : noOverflowRun q rest = true := hno
              obtain ⟨q', outs, h1, h2, h3⟩ := ih q hr hno'
              refine ⟨q', outs, ?_, h2, ?_⟩
              · rw [runOps, hpop, h1]
                simp
              · rw [h3, hbuf]
                simp [pushedFrames]
          | cons f rest' =>
              have hpop := pop_cons q t f rest' hbuf
              rw [hpop] at hno
              have hno' : noOverflowRun { q with queue_ := rest' } rest = true := hno
              obtain ⟨q', outs, h1, h2, h3⟩ := ih { q with queue_ := rest' } hr hno'
              refine ⟨q', f :: outs, ?_, h2, ?_⟩
              · rw [runOps, hpop, h1]
                simp
              · rw [List.cons_append, h3]
                simp [pushedFrames, hbuf]

theorem runOps_size {α : Type} (ops : List (QOp α)) (q : FrameQueue α)
    (hcap : 1 ≤ q.max_size_) (hsz : q.size ≤ q.max_size_) :
    ∃ q' outs, runOps q ops = some (q', outs) ∧
      q'.max_size_ = q.max_size_ ∧ q'.size ≤ q.max_size_ := by
  induction ops generalizing q with
  | nil => exact ⟨q, [], rfl, rfl, hsz⟩
  | cons op rest ih =>
      cases op with
      | push f =>
          obtain ⟨q₁, hp, hsz₁, hcap₁, _⟩ := push_preserves q f hcap hsz
          obtain ⟨q', outs, h1, h2, h3⟩ :=
            ih q₁ (hcap₁.symm ▸ hcap) (hcap₁.symm ▸ hsz₁)
          refine ⟨q', outs, ?_, h2.trans hcap₁, hcap₁ ▸ h3⟩
          rw [runOps, hp]
          exact h1
      | pop t =>
          cases hbuf : q.queue_ with
          | nil =>
              have hpop := pop_nil q t hbuf
              obtain ⟨q', outs, h1, h2, h3⟩ := ih q hcap hsz
              exact ⟨q', outs, by rw [runOps, hpop, h1]; simp, h2, h3⟩
          | cons f rest' =>
              have hpop := pop_cons q t f rest' hbuf
              have hsz' : ({ q with queue_ := rest' } : FrameQueue α).size ≤ q.max_size_ := by
                simp only [FrameQueue.size] at hsz ⊢
                rw [hbuf] at hsz
                simp at hsz
                omega
              obtain ⟨q', outs, h1, h2, h3⟩ := ih { q with queue_ := rest' } hcap hsz'
              exact ⟨q', f :: outs, by rw [runOps, hpop, h1]; simp, h2, h3⟩

theorem popN_drains {α : Type} (buf : List α) (cap : Nat) (r : Bool) :
    popN ⟨buf, cap, r⟩ buf.length = (buf, ⟨[], cap, r⟩) := by
  induction buf with
  | nil => rfl
  | cons f rest ih =>
      rw [List.length_cons, popN,
        pop_cons (⟨f :: rest, cap, r⟩ : FrameQueue α) 1000 f rest rfl]
      simp [ih]

theorem pstep_flag {α : Type} (s s' : PipelineState α) (e : PEvent α)
    (h : pstep s e = some s') :
    (s.running = false → s'.running = false) ∧
    (s'.running ≠ s.running → e = PEvent.requestStop ∨ e = PEvent.captureOpenFail) := by
  cases e with
  | requestStop =>
      rw [pstep, Option.some_inj] at h
      subst h
      exact ⟨fun _ => rfl, fun _ => Or.inl rfl⟩
  | captureOpenFail =>
      rw [pstep, Option.some_inj] at h
      subst h
      exact ⟨fun _ => rfl, fun _ => Or.inr rfl⟩
  | pushFrame f =>
      rw [pstep, Option.map_eq_some'] at h
      obtain ⟨q, _, h⟩ := h
      subst h
      exact ⟨fun hf => hf, fun hne => absurd rfl hne⟩
  | popFrame t =>
      rw [pstep, Option.some_inj] at h
      subst h
      exact ⟨fun hf => hf, fun hne => absurd rfl hne⟩
  | stopQueue =>
      rw [pstep, Option.some_inj] at h
      subst h
      exact ⟨fun hf => hf, fun hne => absurd rfl hne⟩
  | sizeQuery =>
      rw [pstep, Option.some_inj] at h
      subst h
      exact ⟨fun hf => hf, fun hne => absurd rfl hne⟩

theorem prun_flag {α : Type} (es : List (PEvent α)) (s s' : PipelineState α)
    (h : prun s es = some s') (hs : s.running = false) : s'.running = false := by
  induction es generalizing s with
  | nil =>
      rw [prun, Option.some_inj] at h
      subst h
      exact hs
  | cons e rest ih =>
      rw [prun] at h
      cases hstep : pstep s e with
      | none =>
          rw [hstep] at h
          simp at h
      | some s₁ =>
          rw [hstep] at h
          exact ih s₁ h ((pstep_flag s s₁ e hstep).1 hs)

/-! ### The claims -/

/-- Claim C1: for every sequence of interleaved push/pop operations on a
freshly constructed channel in which no overflow occurs (every push
finds fewer than `capacity` buffered frames), the frames delivered by
the successful pops are a front segment of the pushed frames, in exactly
the order they were pushed (FIFO). -/
theorem claim_C1_fifo_order (cap : Nat) (ops : List (QOp Nat))
    (hno : noOverflowRun (FrameQueue.new Nat cap) ops = true) :
    ∃ q' outs, runOps (FrameQueue.new Nat cap) ops = some (q', outs) ∧
      ∃ left, outs ++ left = pushedFrames ops := by
  obtain ⟨q', outs, h1, _, h3⟩ := runOps_fifo ops (FrameQueue.new Nat cap) rfl hno
  exact ⟨q', outs, h1, q'.queue_, by simpa [FrameQueue.new] using h3⟩

/-- Witness for C1: a concrete no-overflow trace on capacity 2. -/
theorem claim_C1_fifo_order_witness :
    noOverflowRun (FrameQueue.new Nat 2)
      [QOp.push 10, QOp.pop 1000, QOp.push 20, QOp.push 30,
        QOp.pop 1000, QOp.pop 1000] = true ∧
    (∃ q' outs, runOps (FrameQueue.new Nat 2)
        [QOp.push 10, QOp.pop 1000, QOp.push 20, QOp.push 30,
          QOp.pop 1000, QOp.pop 1000] = some (q', outs) ∧
      ∃ left, outs ++ left = pushedFrames
        [QOp.push 10, QOp.pop 1000, QOp.push 20, QOp.push 30,
          QOp.pop 1000, QOp.pop 1000]) :=
  ⟨by decide, claim_C1_fifo_order 2
    [QOp.push 10, QOp.pop 1000, QOp.push 20, QOp.push 30,
      QOp.pop 1000, QOp.pop 1000] (by decide)⟩

/-- Claim C2: a push on a full open channel removes the oldest buffered
frames from the front until the size is below capacity and then inserts
the new frame at the back; concretely, pushing a, b, c into a fresh open
channel of capacity 2 and popping twice delivers b then c, never a. -/
theorem claim_C2_overflow_drops_oldest :
    (∀ a b c : Nat, runOps (FrameQueue.new Nat 2)
        [QOp.push a, QOp.push b, QOp.push c, QOp.pop 1000, QOp.pop 1000] =
      some (⟨[], 2, true⟩, [b, c])) ∧
    (∀ (q : FrameQueue Nat) (f : Nat), q.running_ = true → 1 ≤ q.max_size_ →
      q.push f = some { q with
        queue_ := q.queue_.drop (q.queue_.length + 1 - q.max_size_) ++ [f] }) := by
  constructor
  · intro a b c
    rfl
  · intro q f hr hcap
    exact push_open q f hr hcap

/-- Witness for C2: the concrete a, b, c scenario and a one-slot full
queue where the oldest frame is dropped. -/
theorem claim_C2_overflow_drops_oldest_witness :
    runOps (FrameQueue.new Nat 2)
        [QOp.push 0, QOp.push 1, QOp.push 2, QOp.pop 1000, QOp.pop 1000] =
      some (⟨[], 2, true⟩, [1, 2]) ∧
    (⟨[5], 1, true⟩ : FrameQueue Nat).push 7 = some ⟨[7], 1, true⟩ :=
  ⟨claim_C2_overflow_drops_oldest.1 0 1 2,
   claim_C2_overflow_drops_oldest.2 ⟨[5], 1, true⟩ 7 rfl (by decide)⟩

/-- Claim C3: for every capacity N ≥ 1, along every sequence of pushes
and pops from a fresh channel the run never gets stuck and the final
occupancy is at most N (hence, applied to every operation count, the
occupancy never exceeds N), and `size() ≤ capacity` is preserved by
push, pop and stop individually. -/
theorem claim_C3_size_bounded (cap : Nat) (hcap : 1 ≤ cap) :
    (∀ ops : List (QOp Nat), ∃ q' outs,
      runOps (FrameQueue.new Nat cap) ops = some (q', outs) ∧ q'.size ≤ cap) ∧
    (∀ q : FrameQueue Nat, q.max_size_ = cap → q.size ≤ cap →
      (∀ f, ∃ q', q.push f = some q' ∧ q'.size ≤ cap) ∧
      (∀ t, ((q.pop t).2).size ≤ cap) ∧ q.stop.size ≤ cap) := by
  constructor
  · intro ops
    obtain ⟨q', outs, h1, _, h3⟩ := runOps_size ops (FrameQueue.new Nat cap) hcap
      (by simp [FrameQueue.size, FrameQueue.new])
    exact ⟨q', outs, h1, by simpa [FrameQueue.new] using h3⟩
  · intro q hqc hsz
    refine ⟨?_, ?_, hsz⟩
    · intro f
      obtain ⟨q', hp, h1, _, _⟩ := push_preserves q f (hqc.symm ▸ hcap) (hqc.symm ▸ hsz)
      exact ⟨q', hp, hqc ▸ h1⟩
    · intro t
      have hlen : q.queue_.length ≤ cap := hsz
      cases hbuf : q.queue_ with
      | nil =>
          rw [pop_eq, hbuf]
          exact hsz
      | cons f rest =>
          rw [pop_eq, hbuf]
          rw [hbuf] at hlen
          simp only [List.length_cons] at hlen
          simp only [FrameQueue.size, List.length_cons]
          omega

/-- Witness for C3 on capacity 3: a run of four pushes, one push on a
two-frame queue, and one pop. -/
theorem claim_C3_size_bounded_witness :
    (∃ q' outs, runOps (FrameQueue.new Nat 3)
      [QOp.push 1, QOp.push 2, QOp.push 3, QOp.push 4] = some (q', outs) ∧
        q'.size ≤ 3) ∧
    (∃ q', (⟨[8, 9], 3, true⟩ : FrameQueue Nat).push 5 = some q' ∧ q'.size ≤ 3) ∧
    (((⟨[8, 9], 3, true⟩ : FrameQueue Nat).pop 1000).2).size ≤ 3 :=
  ⟨(claim_C3_size_bounded 3 (by decide)).1
      [QOp.push 1, QOp.push 2, QOp.push 3, QOp.push 4],
   ((claim_C3_size_bounded 3 (by decide)).2 ⟨[8, 9], 3, true⟩ rfl (by decide)).1 5,
   ((claim_C3_size_bounded 3 (by decide)).2 ⟨[8, 9], 3, true⟩ rfl (by decide)).2.1 1000⟩

/-- Claim C4: `stop()` discards no buffered frame; after it, popping as
many times as there are buffered frames delivers exactly those frames in
FIFO order (each with `ok = true`, the front frame first), and once the
closed channel is empty every further `pop` returns `ok = false` after a
zero-millisecond wait, whatever the timeout. -/
theorem claim_C4_close_drains_then_reports (q : FrameQueue Nat) (t : Int) :
    q.stop.queue_ = q.queue_ ∧
    popN q.stop q.stop.size = (q.queue_, ⟨[], q.max_size_, false⟩) ∧
    (∀ f rest, q.queue_ = f :: rest → (q.stop.pop t).1 = (some f, true)) ∧
    (⟨[], q.max_size_, false⟩ : FrameQueue Nat).pop t =
      ((none, false), ⟨[], q.max_size_, false⟩) ∧
    (⟨[], q.max_size_, false⟩ : FrameQueue Nat).popElapsed t = 0 := by
  obtain ⟨buf, cap, r⟩ := q
  refine ⟨rfl, ?_, ?_, ?_, rfl⟩
  · exact popN_drains buf cap false
  · intro f rest hbuf
    rw [pop_cons ((⟨buf, cap, r⟩ : FrameQueue Nat).stop) t f rest hbuf]
  · exact pop_nil (⟨[], cap, false⟩ : FrameQueue Nat) t rfl

/-- Witness for C4 at a closed two-frame queue and a negative timeout. -/
theorem claim_C4_close_drains_then_reports_witness :
    popN (⟨[4, 5], 7, true⟩ : FrameQueue Nat).stop
        (⟨[4, 5], 7, true⟩ : FrameQueue Nat).stop.size =
      ([4, 5], ⟨[], 7, false⟩) ∧
    ((⟨[4, 5], 7, true⟩ : FrameQueue Nat).stop.pop (-3)).1 = (some 4, true) ∧
    (⟨[], 7, false⟩ : FrameQueue Nat).pop (-3) = ((none, false), ⟨[], 7, false⟩) ∧
    (⟨[], 7, false⟩ : FrameQueue Nat).popElapsed (-3) = 0 :=
  ⟨(claim_C4_close_drains_then_reports ⟨[4, 5], 7, true⟩ (-3)).2.1,
   (claim_C4_close_drains_then_reports ⟨[4, 5], 7, true⟩ (-3)).2.2.1 4 [5] rfl,
   (claim_C4_close_drains_then_reports ⟨[4, 5], 7, true⟩ (-3)).2.2.2.1,
   (claim_C4_close_drains_then_reports ⟨[4, 5], 7, true⟩ (-3)).2.2.2.2⟩

/-- Claim C5: `push` on a closed channel is a no-op: it returns the
state exactly unchanged (same buffer, capacity and flag), discarding the
frame, with no error — in particular `size()` does not increase. -/
theorem claim_C5_push_after_close_noop (q : FrameQueue Nat) (f : Nat)
    (h : q.running_ = false) :
    q.push f = some q ∧ (q.push f).map FrameQueue.size = some q.size := by
  have hp := push_closed q f h
  exact ⟨hp, by rw [hp]; rfl⟩

/-- Witness for C5 on a closed two-frame queue. -/
theorem claim_C5_push_after_close_noop_witness :
    (⟨[1, 2], 5, false⟩ : FrameQueue Nat).push 9 = some ⟨[1, 2], 5, false⟩ ∧
    ((⟨[1, 2], 5, false⟩ : FrameQueue Nat).push 9).map FrameQueue.size = some 2 :=
  claim_C5_push_after_close_noop ⟨[1, 2], 5, false⟩ 9 rfl

/-- Claim C6: when the capture source fails to open, the capture thread
sets the shared shutdown flag to stopped and closes the channel before
returning, without entering its read loop; a consumer popping the
still-empty channel then gets `ok = false` after a zero-millisecond
wait rather than the full timeout. -/
theorem claim_C6_capture_open_failure (s : PipelineState Nat) (t : Int)
    (hempty : s.frameQueue.queue_ = []) :
    (captureThreadInit false s).2 = false ∧
    (captureThreadInit false s).1.running = false ∧
    (captureThreadInit false s).1.frameQueue.running_ = false ∧
    (captureThreadInit false s).1.frameQueue.queue_ = s.frameQueue.queue_ ∧
    (captureThreadInit false s).1.frameQueue.pop t =
      ((none, false), (captureThreadInit false s).1.frameQueue) ∧
    (captureThreadInit false s).1.frameQueue.popElapsed t = 0 := by
  refine ⟨rfl, rfl, rfl, rfl, ?_, ?_⟩
  · exact pop_nil (captureThreadInit false s).1.frameQueue t hempty
  · simp [captureThreadInit, FrameQueue.popElapsed, FrameQueue.waitPred,
      FrameQueue.stop]

/-- Witness for C6 on the start state of a capacity-5 pipeline. -/
theorem claim_C6_capture_open_failure_witness :
    (captureThreadInit false (pipelineStart Nat 5)).2 = false ∧
    (captureThreadInit false (pipelineStart Nat 5)).1.running = false ∧
    (captureThreadInit false (pipelineStart Nat 5)).1.frameQueue.running_ = false ∧
    (captureThreadInit false (pipelineStart Nat 5)).1.frameQueue.queue_ =
      (pipelineStart Nat 5).frameQueue.queue_ ∧
    (captureThreadInit false (pipelineStart Nat 5)).1.frameQueue.pop 800 =
      ((none, false), (captureThreadInit false (pipelineStart Nat 5)).1.frameQueue) ∧
    (captureThreadInit false (pipelineStart Nat 5)).1.frameQueue.popElapsed 800 = 0 :=
  claim_C6_capture_open_failure (pipelineStart Nat 5) 800 rfl

/-- Claim C7: the shared shutdown flag is running at pipeline start, a
step changes it only on the explicit stop request or the capture-open
failure, every single step preserves stopped (no transition back to
running), and so does every whole run of pipeline events. -/
theorem claim_C7_flag_monotone (cap : Nat) (s s' s₁ s₁' : PipelineState Nat)
    (e : PEvent Nat) (es : List (PEvent Nat))
    (hstep : pstep s e = some s') (hrun : prun s₁ es = some s₁') :
    (pipelineStart Nat cap).running = true ∧
    (s.running = false → s'.running = false) ∧
    (s'.running ≠ s.running →
      e = PEvent.requestStop ∨ e = PEvent.captureOpenFail) ∧
    (s₁.running = false → s₁'.running = false) :=
  ⟨rfl, (pstep_flag s s' e hstep).1, (pstep_flag s s' e hstep).2,
    fun h => prun_flag es s₁ s₁' hrun h⟩

/-- Witness for C7: a push step on a stopped pipeline, a stop-request
step that flips the flag, and a two-event run from a stopped state. -/
theorem claim_C7_flag_monotone_witness :
    (pipelineStart Nat 5).running = true ∧
    (⟨false, ⟨[3], 5, true⟩⟩ : PipelineState Nat).running = false ∧
    ((PEvent.requestStop : PEvent Nat) = PEvent.requestStop ∨
      (PEvent.requestStop : PEvent Nat) = PEvent.captureOpenFail) ∧
    (⟨false, ⟨[], 4, false⟩⟩ : PipelineState Nat).running = false :=
  ⟨(claim_C7_flag_monotone 5 ⟨false, ⟨[], 5, true⟩⟩ ⟨false, ⟨[3], 5, true⟩⟩
      ⟨false, ⟨[2], 4, true⟩⟩ ⟨false, ⟨[], 4, false⟩⟩ (PEvent.pushFrame 3)
      [PEvent.popFrame 50, PEvent.stopQueue] (by decide) (by decide)).1,
   (claim_C7_flag_monotone 5 ⟨false, ⟨[], 5, true⟩⟩ ⟨false, ⟨[3], 5, true⟩⟩
      ⟨false, ⟨[2], 4, true⟩⟩ ⟨false, ⟨[], 4, false⟩⟩ (PEvent.pushFrame 3)
      [PEvent.popFrame 50, PEvent.stopQueue] (by decide) (by decide)).2.1 rfl,
   (claim_C7_flag_monotone 5 ⟨true, ⟨[], 5, true⟩⟩ ⟨false, ⟨[], 5, true⟩⟩
      ⟨false, ⟨[], 4, false⟩⟩ ⟨false, ⟨[], 4, false⟩⟩ PEvent.requestStop
      [] (by decide) (by decide)).2.2.1 (by decide),
   (claim_C7_flag_monotone 5 ⟨false, ⟨[], 5, true⟩⟩ ⟨false, ⟨[3], 5, true⟩⟩
      ⟨false, ⟨[2], 4, true⟩⟩ ⟨false, ⟨[], 4, false⟩⟩ (PEvent.pushFrame 3)
      [PEvent.popFrame 50, PEvent.stopQueue] (by decide) (by decide)).2.2.2 rfl⟩

/-- Claim C8: `pop` with a zero or negative timeout behaves as a poll
without waiting: the wait takes zero milliseconds on every state, and it
returns the front frame with `ok = true` when the buffer is non-empty
and `ok = false` when it is empty, open or closed alike. -/
theorem claim_C8_nonpositive_timeout_polls (q : FrameQueue Nat) (t : Int)
    (ht : t ≤ 0) :
    q.popElapsed t = 0 ∧
    (q.queue_ = [] → q.pop t = ((none, false), q)) ∧
    (∀ f rest, q.queue_ = f :: rest →
      q.pop t = ((some f, true), { q with queue_ := rest })) := by
  refine ⟨?_, pop_nil q t, pop_cons q t⟩
  unfold FrameQueue.popElapsed
  cases h : FrameQueue.waitPred q with
  | true => simp
  | false =>
      simp only [Bool.false_eq_true, if_false]
      omega

/-- Witness for C8: a zero-timeout poll on a non-empty open queue and a
negative-timeout poll on an empty open queue. -/
theorem claim_C8_nonpositive_timeout_polls_witness :
    ((⟨[6], 2, true⟩ : FrameQueue Nat).popElapsed 0 = 0 ∧
      (⟨[6], 2, true⟩ : FrameQueue Nat).pop 0 = ((some 6, true), ⟨[], 2, true⟩)) ∧
    ((⟨[], 2, true⟩ : FrameQueue Nat).popElapsed (-1) = 0 ∧
      (⟨[], 2, true⟩ : FrameQueue Nat).pop (-1) = ((none, false), ⟨[], 2, true⟩)) :=
  ⟨⟨(claim_C8_nonpositive_timeout_polls ⟨[6], 2, true⟩ 0 (by decide)).1,
    (claim_C8_nonpositive_timeout_polls ⟨[6], 2, true⟩ 0 (by decide)).2.2 6 [] rfl⟩,
   ⟨(claim_C8_nonpositive_timeout_polls ⟨[], 2, true⟩ (-1) (by decide)).1,
    (claim_C8_nonpositive_timeout_polls ⟨[], 2, true⟩ (-1) (by decide)).2.1 rfl⟩⟩

/-- Claim C9: `pop` modifies nothing except the front frame it
delivers: on `ok = false` it delivers no frame and returns the state
exactly unchanged; on `ok = true` it removes exactly the front frame,
leaving the rest of the buffer, the capacity and the flag untouched. -/
theorem claim_C9_pop_frame_effect (q : FrameQueue Nat) (t : Int) :
    ((q.pop t).1.2 = false → (q.pop t).1.1 = none ∧ (q.pop t).2 = q) ∧
    ((q.pop t).1.2 = true → ∃ f rest, q.queue_ = f :: rest ∧
      (q.pop t).1.1 = some f ∧ (q.pop t).2 = { q with queue_ := rest }) := by
  cases hbuf : q.queue_ with
  | nil =>
      rw [pop_eq, hbuf]
      exact ⟨fun _ => ⟨rfl, rfl⟩, fun h => Bool.noConfusion h⟩
  | cons f rest =>
      rw [pop_eq, hbuf]
      exact ⟨fun h => Bool.noConfusion h, fun _ => ⟨f, rest, rfl, rfl, rfl⟩⟩

/-- Witness for C9: a timed-out pop on an empty open queue and a
delivering pop on a closed one-frame queue. -/
theorem claim_C9_pop_frame_effect_witness :
    ((⟨[], 2, true⟩ : FrameQueue Nat).pop 1000).1.1 = none ∧
    ((⟨[], 2, true⟩ : FrameQueue Nat).pop 1000).2 = ⟨[], 2, true⟩ ∧
    (∃ f rest, (⟨[7], 2, false⟩ : FrameQueue Nat).queue_ = f :: rest ∧
      ((⟨[7], 2, false⟩ : FrameQueue Nat).pop 1000).1.1 = some f ∧
      ((⟨[7], 2, false⟩ : FrameQueue Nat).pop 1000).2 = ⟨rest, 2, false⟩) :=
  ⟨((claim_C9_pop_frame_effect ⟨[], 2, true⟩ 1000).1 rfl).1,
   ((claim_C9_pop_frame_effect ⟨[], 2, true⟩ 1000).1 rfl).2,
   (claim_C9_pop_frame_effect ⟨[7], 2, false⟩ 1000).2 rfl⟩

/-- Claim C10: with capacity at least 1 the drop-oldest loop inside
`push` terminates, removing `size + 1 - capacity` frames — at most
`size - capacity + 1` — before the insert; capacity ≥ 1 is a genuine
precondition, since on an open channel of capacity 0 the loop reaches
`queue_.pop()` on an empty queue and `push` hits undefined behaviour. -/
theorem claim_C10_drop_loop_terminates (q : FrameQueue Nat) (f : Nat) :
    (1 ≤ q.max_size_ → ∃ q', q.push f = some q' ∧
      (q.running_ = true →
        q'.queue_ = q.queue_.drop (q.size + 1 - q.max_size_) ++ [f] ∧
        q.size + 1 - q.max_size_ ≤ q.size - q.max_size_ + 1)) ∧
    (q.max_size_ = 0 → q.running_ = true →
      q.push f = none ∧
      FrameQueue.dropLoop q.running_ q.max_size_ q.queue_ = none) := by
  constructor
  · intro hcap
    cases hr : q.running_ with
    | false => exact ⟨q, push_closed q f hr, fun h => Bool.noConfusion h⟩
    | true =>
        refine ⟨_, push_open q f hr hcap, fun _ => ⟨rfl, ?_⟩⟩
        omega
  · intro hcap hr
    refine ⟨push_cap_zero q f hr hcap, ?_⟩
    rw [hr, hcap]
    exact dropLoop_cap_zero q.queue_

/-- Witness for C10: a full open capacity-3 queue, and the capacity-0
undefined-behaviour case on an open empty queue. -/
theorem claim_C10_drop_loop_terminates_witness :
    (∃ q', (⟨[1, 2, 3], 3, true⟩ : FrameQueue Nat).push 9 = some q' ∧
      ((⟨[1, 2, 3], 3, true⟩ : FrameQueue Nat).running_ = true →
        q'.queue_ = [2, 3, 9] ∧ (3 : Nat) + 1 - 3 ≤ 3 - 3 + 1)) ∧
    ((⟨[], 0, true⟩ : FrameQueue Nat).push 9 = none ∧
      FrameQueue.dropLoop (⟨[], 0, true⟩ : FrameQueue Nat).running_
        (⟨[], 0, true⟩ : FrameQueue Nat).max_size_
        (⟨[], 0, true⟩ : FrameQueue Nat).queue_ = none) :=
  ⟨(claim_C10_drop_loop_terminates ⟨[1, 2, 3], 3, true⟩ 9).1 (by decide),
   (claim_C10_drop_loop_terminates ⟨[], 0, true⟩ 9).2 rfl rfl⟩
